import Mathlib

/-
  Verification of the embla-carousel engine excerpt.

  The repository excerpt contains the vanilla facade (src/src/vanilla/index.ts)
  and a ScrollProgress test (src/unnamed/part_000).  The engine components the
  facade consumes (ScrollLimit, ScrollProgress, ScrollBody, Index, Animation,
  Engine construction) are imported from files outside the excerpt; where a
  claim depends on one of those, the component is modelled from the spec, as
  marked in each doc comment.  Numbers are embedded as rationals.
-/

namespace Embla

/-- Scrollable range of locations, min ≤ max in the intended use. -/
structure Limit where
  min : ℚ
  max : ℚ
  deriving DecidableEq

/-- Modelled from the spec: the ScrollLimit component is outside the excerpt.
Section 4.1 of the spec: measure returns max = 0 and
min = -(contentSize - viewportSize), or min = 0 when content fits the
viewport. -/
def measureLimit (contentSize viewportSize : ℚ) : Limit :=
  { min := if contentSize ≤ viewportSize then 0 else -(contentSize - viewportSize)
    max := 0 }

/-- Modelled from the spec: the ScrollProgress component is outside the
excerpt.  Section 4.8 of the spec: get(location) returns
(location - max) / (min - max). -/
def scrollProgressGet (limit : Limit) (location : ℚ) : ℚ :=
  (location - limit.max) / (limit.min - limit.max)

/-- State of the ScrollBody physics simulator. -/
structure BodyState where
  location : ℚ
  target : ℚ
  velocity : ℚ
  deriving DecidableEq

/-- Modelled from the spec: the ScrollBody component is outside the excerpt.
Section 4.4 of the spec, one simulation tick:
diff = target - location; velocity = (velocity + diff * springConstant) * friction;
location = location + velocity. -/
def tick (springConstant friction : ℚ) (s : BodyState) : BodyState :=
  let diff := s.target - s.location
  let velocity := (s.velocity + diff * springConstant) * friction
  { location := s.location + velocity, target := s.target, velocity := velocity }

/-- Iterated simulation ticks. -/
def tickIter (springConstant friction : ℚ) : ℕ → BodyState → BodyState
  | 0, s => s
  | n + 1, s => tick springConstant friction (tickIter springConstant friction n s)

/-- Settled condition from the spec: position and velocity within tolerance. -/
def settled (eps : ℚ) (s : BodyState) : Prop :=
  |s.target - s.location| < eps ∧ |s.velocity| < eps

/-- Modelled from the spec: the Index component is outside the excerpt.
Section 4.3 of the spec: a counter over len snap points; set applies
wraparound ((n % len) + len) % len when looping, else clamps to the range
0 to len - 1.  The JavaScript remainder truncates toward zero, which is
Int.tmod. -/
structure IndexState where
  len : ℤ
  loop : Bool
  value : ℤ
  deriving DecidableEq

/-- Modelled from the spec: Index set, wraparound when looping else clamp. -/
def indexSet (i : IndexState) (n : ℤ) : IndexState :=
  { i with value :=
      if i.loop then (Int.tmod n i.len + i.len).tmod i.len
      else min (max n 0) (i.len - 1) }

/-- Modelled from the spec: Index add offsets the current value through set. -/
def indexAdd (i : IndexState) (n : ℤ) : IndexState :=
  indexSet i (i.value + n)

/-- Modelled from the spec: the Animation component is outside the excerpt.
Section 4.5 of the spec: the loop is Idle when no frame callback is
scheduled and Running when one is; stop cancels any scheduled frame. -/
structure AnimationState where
  scheduledFrame : Option ℕ
  deriving DecidableEq

/-- Modelled from the spec: Animation stop cancels the scheduled frame,
returning to Idle. -/
def animationStop (_a : AnimationState) : AnimationState :=
  { scheduledFrame := none }

/-- Idle means no frame is scheduled. -/
def animationIdle (a : AnimationState) : Prop :=
  a.scheduledFrame = none

/-- View queries of the facade: the engine check results at the current and
target locations are carried as state because the SlidesInView component is
outside the excerpt; snapIndexes is the full snap-index list. -/
structure ViewState where
  snapIndexes : List ℤ
  inViewTarget : List ℤ
  inViewCurrent : List ℤ

/-- Embeds the facade slidesInView: the check result at the target location
when the target flag is set, else at the current location. -/
def slidesInView (s : ViewState) (target : Bool) : List ℤ :=
  if target then s.inViewTarget else s.inViewCurrent

/-- Embeds the facade slidesNotInView: the snap indexes whose indexOf in the
matching slidesInView result is -1, that is, the ones not contained in it. -/
def slidesNotInView (s : ViewState) (target : Bool) : List ℤ :=
  s.snapIndexes.filter (fun i => decide (i ∉ slidesInView s target))

/-- Named events the facade emits; only the ones the claims touch are
modelled. -/
inductive EmblaEvent where
  | init
  | reInit
  | destroyed
  deriving DecidableEq

/-- Static layout environment for one activation: whether the root and
container nodes can be found, the number of snap points, and what the slide
looper reports about loopability.  These stand for the DOM measurements,
which are stable for the duration of one activation. -/
structure Layout where
  rootPresent : Bool
  containerPresent : Bool
  snapCount : ℤ
  canLoop : Bool

/-- Options fields the claims touch. -/
structure Options where
  startIndex : ℤ
  loop : Bool
  deriving DecidableEq

/-- Partial options object: absent fields keep the value of the target of
the Object.assign merge. -/
structure OptionsPatch where
  startIndex : Option ℤ
  loop : Option Bool
  deriving DecidableEq

/-- Embeds Object.assign(base, patch) on the modelled options fields. -/
def assignOptions (base : Options) (patch : OptionsPatch) : Options :=
  { startIndex := patch.startIndex.getD base.startIndex
    loop := patch.loop.getD base.loop }

/-- Errors activation can surface. -/
inductive ActivationError where
  | missingRoot
  | missingContainer
  | outOfFuel
  deriving DecidableEq

/-- Modelled from the spec: Engine construction is outside the excerpt; per
spec sections 3 and 4.3 the engine owns an Index over the snap count that is
initialized by normalizing options.startIndex, and runs in loop mode per
options.loop. -/
structure Engine where
  index : IndexState
  loop : Bool
  deriving DecidableEq

/-- Modelled from the spec: Engine construction from layout and options. -/
def mkEngine (layout : Layout) (options : Options) : Engine :=
  { index := indexSet ⟨layout.snapCount, options.loop, 0⟩ options.startIndex
    loop := options.loop }

/-- Facade state the claims touch: the wholesale-replaced engine, the
activated flag, the accumulated options, and the events emitted so far. -/
structure Facade where
  engine : Option Engine
  activated : Bool
  options : Options
  emitted : List EmblaEvent
  deriving DecidableEq

/-- Embeds storeElements: throws when the root node is missing, then when
the container node is missing, before anything else happens. -/
def storeElements (layout : Layout) : Except ActivationError Unit :=
  if layout.rootPresent then
    if layout.containerPresent then Except.ok ()
    else Except.error ActivationError.missingContainer
  else Except.error ActivationError.missingRoot

/-- Embeds activate together with the reActivate fallback it returns into
when loop is requested but the slide looper cannot loop.  The fallback calls
reActivate with loop false, which reads the just-built engine index as
startIndex, merges, and activates again; the fuel argument bounds that
recursion, which stops after one fallback because the fallback patch turns
loop off.  Class toggling, listener wiring and the deActivate teardown do
not touch the modelled fields and are omitted. -/
def activateFuel (layout : Layout) : ℕ → Facade → OptionsPatch → Except ActivationError Facade
  | 0, _, _ => Except.error ActivationError.outOfFuel
  | fuel + 1, st, patch =>
    match storeElements layout with
    | Except.error e => Except.error e
    | Except.ok _ =>
      let options := assignOptions st.options patch
      let engine := mkEngine layout options
      let st1 : Facade := { st with options := options, engine := some engine }
      let proceed : Except ActivationError Facade :=
        if st1.activated then Except.ok st1
        else Except.ok { st1 with activated := true, emitted := st1.emitted ++ [EmblaEvent.init] }
      if options.loop then
        if layout.canLoop then proceed
        else
          let fallback : OptionsPatch :=
            { startIndex := some engine.index.value, loop := some false }
          match activateFuel layout fuel st1 fallback with
          | Except.ok st2 => Except.ok { st2 with emitted := st2.emitted ++ [EmblaEvent.reInit] }
          | Except.error e => Except.error e
      else proceed

/-- Activation needs at most one reActivate fallback, so fuel 2 is enough. -/
def activate (layout : Layout) (st : Facade) (patch : OptionsPatch) :
    Except ActivationError Facade :=
  activateFuel layout 2 st patch

/-- Embeds reActivate as called by reInit or resize: reads the current
engine index as the startIndex of the merged options, deactivates, activates
with them, and emits reInit. -/
def reActivate (layout : Layout) (st : Facade) (patch : OptionsPatch) :
    Except ActivationError Facade :=
  match st.engine with
  | none => Except.error ActivationError.missingRoot
  | some engine =>
    let merged : OptionsPatch :=
      { startIndex := some (patch.startIndex.getD engine.index.value), loop := patch.loop }
    match activate layout st merged with
    | Except.ok st2 => Except.ok { st2 with emitted := st2.emitted ++ [EmblaEvent.reInit] }
    | Except.error e => Except.error e

/-- Embeds destroy: returns at once unless activated, else tears down,
clears the engine, drops the activated flag, and emits destroy. -/
def destroy (st : Facade) : Facade :=
  if st.activated then
    { st with
      activated := false
      engine := none
      emitted := st.emitted ++ [EmblaEvent.destroyed] }
  else st

/-- Embeds selectedScrollSnap: the current engine index value. -/
def selectedScrollSnap (e : Engine) : ℤ :=
  e.index.value

lemma tickIter_target (springConstant friction : ℚ) (n : ℕ) (s : BodyState) :
    (tickIter springConstant friction n s).target = s.target := by
  induction n with
  | zero => rfl
  | succ n ih => rw [tickIter, tick]; exact ih

lemma diverge_closed_form (n : ℕ) :
    tickIter (15 / 2) (1 / 2) n ⟨0, 2, -3⟩ =
      ⟨2 - 2 * (-2 : ℚ) ^ n, 2, -3 * (-2 : ℚ) ^ n⟩ := by
  induction n with
  | zero => norm_num [tickIter]
  | succ n ih =>
      rw [tickIter, ih]
      simp only [tick, BodyState.mk.injEq]
      refine ⟨by ring, trivial, by ring⟩

/-- C3: measureLimit returns max = 0, and min = -(contentSize - viewportSize)
when content overflows the viewport, min = 0 when content fits; whenever
contentSize ≤ viewportSize both min and max are 0; and min ≤ max always
holds.  Limit measurement is spec-modelled because the ScrollLimit component
is outside the excerpt. -/
theorem limit_measure_spec (contentSize viewportSize : ℚ) :
    (measureLimit contentSize viewportSize).max = 0 ∧
    (contentSize ≤ viewportSize →
      (measureLimit contentSize viewportSize).min = 0 ∧
      (measureLimit contentSize viewportSize).max = 0) ∧
    (viewportSize < contentSize →
      (measureLimit contentSize viewportSize).min = -(contentSize - viewportSize)) ∧
    (measureLimit contentSize viewportSize).min ≤ (measureLimit contentSize viewportSize).max := by
  unfold measureLimit
  refine ⟨rfl, fun h => by simp [h], fun h => by simp [not_le.mpr h], ?_⟩
  by_cases h : contentSize ≤ viewportSize
  · simp [h]
  · simp only [h, if_false]
    have : 0 < contentSize - viewportSize := by linarith [not_le.mp h]
    linarith

/-- Witness for C3 at the concrete content size 400 and viewport size 80 of
the ScrollProgress test: min = -320 and max = 0. -/
theorem limit_measure_spec_witness :
    (measureLimit 400 80).min = -320 ∧ (measureLimit 400 80).max = 0 := by
  have h := limit_measure_spec 400 80
  refine ⟨?_, h.1⟩
  have hmin := h.2.2.1 (by norm_num)
  rw [hmin]; norm_num

/-- C1: scrollProgressGet location equals (location - max) / (min - max); it
is 0 at location = limit.max, 1 at location = limit.min, linear in between
(hence one half at the midpoint); and on the concrete five-snap layout with
content size 400 (limit min = -320, max = 0) progress at location 0 is 0, at
-160 is one half, at -320 is 1.  ScrollProgress is spec-modelled because the
component is outside the excerpt. -/
theorem scrollProgress_spec (limit : Limit) (hne : limit.min ≠ limit.max) :
    (∀ location : ℚ,
      scrollProgressGet limit location = (location - limit.max) / (limit.min - limit.max)) ∧
    scrollProgressGet limit limit.max = 0 ∧
    scrollProgressGet limit limit.min = 1 ∧
    (∀ t : ℚ, scrollProgressGet limit (limit.max + t * (limit.min - limit.max)) = t) ∧
    scrollProgressGet limit ((limit.max + limit.min) / 2) = 1 / 2 ∧
    scrollProgressGet (measureLimit 400 80) 0 = 0 ∧
    scrollProgressGet (measureLimit 400 80) (-160) = 1 / 2 ∧
    scrollProgressGet (measureLimit 400 80) (-320) = 1 := by
  have hsub : limit.min - limit.max ≠ 0 := sub_ne_zero.mpr hne
  have hconcrete : measureLimit 400 80 = ⟨-320, 0⟩ := by
    unfold measureLimit
    norm_num
  refine ⟨fun _ => rfl, ?_, ?_, ?_, ?_, ?_, ?_, ?_⟩
  · unfold scrollProgressGet
    rw [sub_self, zero_div]
  · unfold scrollProgressGet
    exact div_self hsub
  · intro t
    unfold scrollProgressGet
    rw [add_sub_cancel_left, mul_div_assoc, div_self hsub, mul_one]
  · unfold scrollProgressGet
    field_simp
    ring
  · rw [hconcrete]; unfold scrollProgressGet; norm_num
  · rw [hconcrete]; unfold scrollProgressGet; norm_num
  · rw [hconcrete]; unfold scrollProgressGet; norm_num

/-- Witness for C1 at the concrete limit of the test layout. -/
theorem scrollProgress_spec_witness :
    scrollProgressGet (measureLimit 400 80) 0 = 0 ∧
    scrollProgressGet (measureLimit 400 80) (-160) = 1 / 2 ∧
    scrollProgressGet (measureLimit 400 80) (-320) = 1 := by
  have h := scrollProgress_spec (measureLimit 400 80) (by unfold measureLimit; norm_num)
  exact ⟨h.2.2.2.2.2.1, h.2.2.2.2.2.2.1, h.2.2.2.2.2.2.2⟩

/-- Counterexample for C2: with friction 1/2 (< 1) and spring constant 15/2,
starting from location 0, target 2, velocity -3, the tick dynamics double the
distance to target on every step, so no number of ticks ever reaches the
settled condition with tolerance 1/100. -/
theorem scrollBody_convergence_counterexample :
    (1 : ℚ) / 2 < 1 ∧
    ¬ ∃ n : ℕ, settled (1 / 100) (tickIter (15 / 2) (1 / 2) n ⟨0, 2, -3⟩) := by
  refine ⟨by norm_num, ?_⟩
  rintro ⟨n, hdiff, -⟩
  rw [diverge_closed_form] at hdiff
  have habs : |(2 : ℚ) - (2 - 2 * (-2 : ℚ) ^ n)| = 2 * 2 ^ n := by
    have : (2 : ℚ) - (2 - 2 * (-2 : ℚ) ^ n) = 2 * (-2) ^ n := by ring
    rw [this, abs_mul, abs_pow, abs_neg]
    norm_num
  have hpow : (1 : ℚ) ≤ 2 ^ n := one_le_pow₀ (by norm_num)
  simp only [settled] at hdiff
  rw [habs] at hdiff
  linarith

lemma tick_err (springConstant friction : ℚ) (s : BodyState) :
    s.target - (tick springConstant friction s).location =
      (1 - springConstant * friction) * (s.target - s.location) - friction * s.velocity := by
  simp only [tick]
  ring

lemma tick_vel (springConstant friction : ℚ) (s : BodyState) :
    (tick springConstant friction s).velocity =
      springConstant * friction * (s.target - s.location) + friction * s.velocity := by
  simp only [tick]
  ring

lemma lyapunov_step (p f k c e v : ℚ) (hp : 0 < p)
    (hk : k = (1 - p) / p) (hc1 : 1 - p ≤ c) (hc2 : f ^ 2 ≤ c * (1 - p)) :
    ((1 - p) * e - f * v) ^ 2 + k * (p * e + f * v) ^ 2 ≤ c * (e ^ 2 + k * v ^ 2) := by
  have hpne : p ≠ 0 := ne_of_gt hp
  have key : ((1 - p) * e - f * v) ^ 2 + k * (p * e + f * v) ^ 2
      = (1 - p) * e ^ 2 + f ^ 2 / p * v ^ 2 := by
    rw [hk]; field_simp; ring
  rw [key, hk]
  have h1 : (1 - p) * e ^ 2 ≤ c * e ^ 2 :=
    mul_le_mul_of_nonneg_right hc1 (sq_nonneg e)
  have hdiv : f ^ 2 / p ≤ c * (1 - p) / p := (div_le_div_iff_of_pos_right hp).mpr hc2
  have h2 : f ^ 2 / p * v ^ 2 ≤ c * (1 - p) / p * v ^ 2 :=
    mul_le_mul_of_nonneg_right hdiv (sq_nonneg v)
  have hr : c * (e ^ 2 + (1 - p) / p * v ^ 2)
      = c * e ^ 2 + c * (1 - p) / p * v ^ 2 := by ring
  linarith

/-- C2 (amended): the ScrollBody tick dynamics settle in a bounded number of
ticks from every finite starting location, target and velocity, for any
tolerance, provided friction and spring constant are positive and satisfy
friction^2 + springConstant * friction < 1 (which forces friction < 1); the
unqualified claim for every friction < 1 fails, see the counterexample.  The
tick rule is spec-modelled because ScrollBody is outside the excerpt. -/
theorem scrollBody_convergence (springConstant friction loc tgt vel eps : ℚ)
    (heps : 0 < eps) (hf : 0 < friction) (hs : 0 < springConstant)
    (hcond : friction ^ 2 + springConstant * friction < 1) :
    ∃ n : ℕ, settled eps (tickIter springConstant friction n ⟨loc, tgt, vel⟩) := by
  set p := springConstant * friction with hpdef
  have hp : 0 < p := mul_pos hs hf
  have hp1 : p < 1 := by nlinarith [sq_nonneg friction]
  have h1p : 0 < 1 - p := by linarith
  set k := (1 - p) / p with hkdef
  have hk : 0 < k := div_pos h1p hp
  set c := max (1 - p) (friction ^ 2 / (1 - p)) with hcdef
  have hc1 : 1 - p ≤ c := le_max_left _ _
  have hcpos : 0 < c := lt_of_lt_of_le h1p hc1
  have hc2 : friction ^ 2 ≤ c * (1 - p) := by
    have hle : friction ^ 2 / (1 - p) ≤ c := le_max_right _ _
    have := mul_le_mul_of_nonneg_right hle h1p.le
    rwa [div_mul_cancel₀ _ (ne_of_gt h1p)] at this
  have hclt1 : c < 1 := by
    apply max_lt (by linarith)
    rw [div_lt_one h1p]
    linarith
  set s : ℕ → BodyState := fun n => tickIter springConstant friction n ⟨loc, tgt, vel⟩ with hsdef
  have htgt : ∀ n, (s n).target = tgt := fun n => tickIter_target _ _ n _
  set lyap : ℕ → ℚ := fun n => (tgt - (s n).location) ^ 2 + k * (s n).velocity ^ 2 with hlyap
  have hnonneg : ∀ n, 0 ≤ lyap n := fun n =>
    add_nonneg (sq_nonneg _) (mul_nonneg hk.le (sq_nonneg _))
  have hstep : ∀ n, lyap (n + 1) ≤ c * lyap n := by
    intro n
    have hsn : s (n + 1) = tick springConstant friction (s n) := rfl
    have herr : tgt - (s (n + 1)).location
        = (1 - p) * (tgt - (s n).location) - friction * (s n).velocity := by
      rw [hsn, ← htgt n, tick_err, htgt n, hpdef]
    have hvel : (s (n + 1)).velocity
        = p * (tgt - (s n).location) + friction * (s n).velocity := by
      rw [hsn, ← htgt n, tick_vel, htgt n, hpdef]
    calc lyap (n + 1)
        = ((1 - p) * (tgt - (s n).location) - friction * (s n).velocity) ^ 2
          + k * (p * (tgt - (s n).location) + friction * (s n).velocity) ^ 2 := by
            rw [show lyap (n + 1)
                = (tgt - (s (n + 1)).location) ^ 2 + k * (s (n + 1)).velocity ^ 2 from rfl,
              herr, hvel]
      _ ≤ c * ((tgt - (s n).location) ^ 2 + k * (s n).velocity ^ 2) :=
            lyapunov_step p friction k c _ _ hp hkdef hc1 hc2
      _ = c * lyap n := rfl
  have hdecay : ∀ n, lyap n ≤ c ^ n * lyap 0 := by
    intro n
    induction n with
    | zero => simp
    | succ n ih =>
        calc lyap (n + 1) ≤ c * lyap n := hstep n
          _ ≤ c * (c ^ n * lyap 0) := mul_le_mul_of_nonneg_left ih hcpos.le
          _ = c ^ (n + 1) * lyap 0 := by ring
  set del := min (eps ^ 2) (k * eps ^ 2) with hdel
  have hdelpos : 0 < del := lt_min (pow_pos heps 2) (mul_pos hk (pow_pos heps 2))
  have hsmall : ∃ n, lyap n < del := by
    rcases eq_or_lt_of_le (hnonneg 0) with h0 | h0
    · exact ⟨0, by rw [← h0]; exact hdelpos⟩
    · obtain ⟨n, hn⟩ := exists_pow_lt_of_lt_one (div_pos hdelpos h0) hclt1
      refine ⟨n, lt_of_le_of_lt (hdecay n) ?_⟩
      calc c ^ n * lyap 0 < del / lyap 0 * lyap 0 :=
            mul_lt_mul_of_pos_right hn h0
        _ = del := div_mul_cancel₀ _ (ne_of_gt h0)
  obtain ⟨n, hn⟩ := hsmall
  refine ⟨n, ?_, ?_⟩
  · rw [htgt n]
    have hsq : (tgt - (s n).location) ^ 2 < eps ^ 2 := by
      have := mul_nonneg hk.le (sq_nonneg (s n).velocity)
      have hle : (tgt - (s n).location) ^ 2 ≤ lyap n := le_add_of_nonneg_right this
      exact lt_of_le_of_lt hle (lt_of_lt_of_le hn (min_le_left _ _))
    exact abs_lt_of_sq_lt_sq hsq heps.le
  · have hsq : (s n).velocity ^ 2 < eps ^ 2 := by
      have hle : k * (s n).velocity ^ 2 ≤ lyap n :=
        le_add_of_nonneg_left (sq_nonneg _)
      have hlt : k * (s n).velocity ^ 2 < k * eps ^ 2 :=
        lt_of_le_of_lt hle (lt_of_lt_of_le hn (min_le_right _ _))
      exact (mul_lt_mul_left hk).mp hlt
    exact abs_lt_of_sq_lt_sq hsq heps.le

/-- Witness for C2 (as amended) at spring constant 1, friction 1/2, start
location 0, target 1, velocity 0, tolerance 1: some number of ticks settles. -/
theorem scrollBody_convergence_witness :
    ∃ n : ℕ, settled 1 (tickIter 1 (1 / 2) n ⟨0, 1, 0⟩) :=
  scrollBody_convergence 1 (1 / 2) 0 1 0 1 (by norm_num) (by norm_num)
    (by norm_num) (by norm_num)

lemma tmod_lower (n len : ℤ) (h : 0 < len) : -len < n.tmod len := by
  obtain ⟨k, rfl⟩ : ∃ k : ℕ, len = (k : ℤ) := ⟨len.toNat, (Int.toNat_of_nonneg h.le).symm⟩
  have hk : 0 < k := by exact_mod_cast h
  cases n with
  | ofNat m =>
      have h0 : 0 ≤ (Int.ofNat m).tmod (k : ℤ) := Int.tmod_nonneg _ (Int.ofNat_nonneg m)
      have hh : (0 : ℤ) < (k : ℤ) := h
      omega
  | negSucc m =>
      have hr : (Int.negSucc m).tmod (k : ℤ) = -((m.succ % k : ℕ) : ℤ) := rfl
      rw [hr]
      have := Nat.mod_lt m.succ hk
      omega

lemma wrap_tmod_eq_emod (n len : ℤ) (h : 0 < len) :
    (Int.tmod n len + len).tmod len = n.emod len := by
  have hlow : -len < n.tmod len := tmod_lower n len h
  have hnn : 0 ≤ n.tmod len + len := by linarith
  rw [Int.tmod_eq_emod hnn h.le]
  have hd : n.tmod len = n - len * n.tdiv len := Int.tmod_def n len
  have hsplit : n.tmod len + len = n + len * (1 - n.tdiv len) := by rw [hd]; ring
  rw [hsplit, Int.add_mul_emod_self_left]
  rfl

/-- C4: indexSet (hence indexAdd) wraps out-of-range values with the
JavaScript formula ((n % len) + len) % len when looping, which agrees with
the mathematical remainder, and clamps to the range 0 to len - 1 when not
looping; either way the result is in range for positive len, so no input
needs to fail; and on a 5-snap engine, adding -1 at index 0 gives 4 when
looping and 0 when not.  Index is spec-modelled because the component is
outside the excerpt. -/
theorem index_wrap_clamp (len n v : ℤ) (hlen : 0 < len) :
    (indexSet ⟨len, true, v⟩ n).value = (Int.tmod n len + len).tmod len ∧
    (indexSet ⟨len, true, v⟩ n).value = n.emod len ∧
    (indexSet ⟨len, false, v⟩ n).value = min (max n 0) (len - 1) ∧
    (0 ≤ (indexSet ⟨len, true, v⟩ n).value ∧ (indexSet ⟨len, true, v⟩ n).value < len) ∧
    (0 ≤ (indexSet ⟨len, false, v⟩ n).value ∧ (indexSet ⟨len, false, v⟩ n).value < len) ∧
    (indexAdd ⟨5, true, 0⟩ (-1)).value = 4 ∧
    (indexAdd ⟨5, false, 0⟩ (-1)).value = 0 := by
  have hwrap : (indexSet ⟨len, true, v⟩ n).value = n.emod len := by
    simp only [indexSet, if_true]
    exact wrap_tmod_eq_emod n len hlen
  have hclamp : (indexSet ⟨len, false, v⟩ n).value = min (max n 0) (len - 1) := by
    simp [indexSet]
  refine ⟨by simp [indexSet], hwrap, hclamp, ?_, ?_, by decide, by decide⟩
  · rw [hwrap]
    exact ⟨Int.emod_nonneg n (ne_of_gt hlen), Int.emod_lt_of_pos n hlen⟩
  · rw [hclamp]
    constructor
    · exact le_min (le_max_right n 0) (by linarith)
    · exact lt_of_le_of_lt (min_le_right _ _) (by linarith)

/-- Witness for C4 on the 5-snap engine at input -1. -/
theorem index_wrap_clamp_witness :
    (indexAdd ⟨5, true, 0⟩ (-1)).value = 4 ∧
    (indexAdd ⟨5, false, 0⟩ (-1)).value = 0 := by
  have h := index_wrap_clamp 5 (-1) 0 (by decide)
  exact ⟨h.2.2.2.2.2.1, h.2.2.2.2.2.2⟩

/-- C8: animationStop is idempotent: stopping twice yields the same Idle
state as stopping once, stopping always lands in Idle, and stopping from
Idle changes nothing (and in this total model cannot error).  Animation is
spec-modelled because the component is outside the excerpt. -/
theorem animation_stop_idempotent :
    (∀ a : AnimationState, animationStop (animationStop a) = animationStop a) ∧
    (∀ a : AnimationState, animationIdle (animationStop a)) ∧
    (∀ a : AnimationState, animationIdle a → animationStop a = a) := by
  refine ⟨fun a => rfl, fun a => rfl, fun a ha => ?_⟩
  cases a with
  | mk f =>
      simp only [animationIdle] at ha
      simp [animationStop, ha]

/-- Witness for C8 at a Running state with frame 3 and at the Idle state. -/
theorem animation_stop_idempotent_witness :
    animationStop (animationStop ⟨some 3⟩) = animationStop ⟨some 3⟩ ∧
    animationStop ⟨none⟩ = ⟨none⟩ :=
  ⟨animation_stop_idempotent.1 ⟨some 3⟩, animation_stop_idempotent.2.2 ⟨none⟩ rfl⟩

/-- C5: for either target flag, slidesInView and slidesNotInView are
disjoint and together list every snap index exactly once, whenever the
engine check returns distinct indices drawn from the snap-index list (which
itself has no duplicates). -/
theorem slides_view_partition (s : ViewState) (target : Bool)
    (hsnaps : s.snapIndexes.Nodup)
    (hview : (slidesInView s target).Nodup)
    (hsub : ∀ i, i ∈ slidesInView s target → i ∈ s.snapIndexes) :
    List.Disjoint (slidesInView s target) (slidesNotInView s target) ∧
    (∀ i, i ∈ s.snapIndexes ↔
      (i ∈ slidesInView s target ∨ i ∈ slidesNotInView s target)) ∧
    (slidesInView s target ++ slidesNotInView s target).Perm s.snapIndexes := by
  have hmemNot : ∀ i, i ∈ slidesNotInView s target ↔
      (i ∈ s.snapIndexes ∧ i ∉ slidesInView s target) := by
    intro i
    simp [slidesNotInView, List.mem_filter]
  have hdisj : List.Disjoint (slidesInView s target) (slidesNotInView s target) := by
    intro i hin hnot
    exact ((hmemNot i).mp hnot).2 hin
  have hcover : ∀ i, i ∈ s.snapIndexes ↔
      (i ∈ slidesInView s target ∨ i ∈ slidesNotInView s target) := by
    intro i
    constructor
    · intro hi
      by_cases hv : i ∈ slidesInView s target
      · exact Or.inl hv
      · exact Or.inr ((hmemNot i).mpr ⟨hi, hv⟩)
    · rintro (hv | hn)
      · exact hsub i hv
      · exact ((hmemNot i).mp hn).1
  refine ⟨hdisj, hcover, ?_⟩
  have hnodupNot : (slidesNotInView s target).Nodup := hsnaps.filter _
  have hnodupApp : (slidesInView s target ++ slidesNotInView s target).Nodup :=
    hview.append hnodupNot hdisj
  rw [List.perm_ext_iff_of_nodup hnodupApp hsnaps]
  intro i
  rw [List.mem_append]
  exact (hcover i).symm

/-- Witness for C5 on a 5-snap layout with indices 1 and 2 in view of the
target location. -/
theorem slides_view_partition_witness :
    List.Disjoint (slidesInView ⟨[0, 1, 2, 3, 4], [1, 2], [0]⟩ true)
      (slidesNotInView ⟨[0, 1, 2, 3, 4], [1, 2], [0]⟩ true) ∧
    (∀ i, i ∈ ([0, 1, 2, 3, 4] : List ℤ) ↔
      (i ∈ slidesInView ⟨[0, 1, 2, 3, 4], [1, 2], [0]⟩ true ∨
       i ∈ slidesNotInView ⟨[0, 1, 2, 3, 4], [1, 2], [0]⟩ true)) ∧
    (slidesInView ⟨[0, 1, 2, 3, 4], [1, 2], [0]⟩ true ++
      slidesNotInView ⟨[0, 1, 2, 3, 4], [1, 2], [0]⟩ true).Perm [0, 1, 2, 3, 4] := by
  exact slides_view_partition ⟨[0, 1, 2, 3, 4], [1, 2], [0]⟩ true (by decide) (by decide)
    (by intro i hi; simp only [slidesInView, if_true] at hi; fin_cases hi <;> decide)

lemma activateFuel_error_of_store (layout : Layout) (fuel : ℕ) (st : Facade)
    (patch : OptionsPatch) (e : ActivationError)
    (he : storeElements layout = Except.error e) :
    activateFuel layout (fuel + 1) st patch = Except.error e := by
  simp only [activateFuel, he]

/-- C7: when the root node or the container node is missing, activation
fails immediately with the storeElements error: storeElements is the first
step of activate and throws before any Engine is constructed, so activation
never yields a facade state on this error and the caller's state is
untouched. -/
theorem activate_missing_node (layout : Layout) (st : Facade) (patch : OptionsPatch)
    (h : layout.rootPresent = false ∨ layout.containerPresent = false) :
    (∃ e, activate layout st patch = Except.error e ∧
      storeElements layout = Except.error e) ∧
    (∀ st2, activate layout st patch ≠ Except.ok st2) := by
  obtain ⟨e, he⟩ : ∃ e, storeElements layout = Except.error e := by
    by_cases hr : layout.rootPresent
    · rcases h with h | h
      · rw [hr] at h; exact absurd h (by simp)
      · exact ⟨ActivationError.missingContainer, by simp [storeElements, hr, h]⟩
    · exact ⟨ActivationError.missingRoot, by simp [storeElements, hr]⟩
  have hact : activate layout st patch = Except.error e :=
    activateFuel_error_of_store layout 1 st patch e he
  exact ⟨⟨e, hact, he⟩, fun st2 hok => by rw [hact] at hok; exact Except.noConfusion hok⟩

/-- Witness for C7 at a layout whose container node is missing. -/
theorem activate_missing_node_witness :
    (∃ e, activate ⟨true, false, 5, true⟩
        ⟨none, false, ⟨0, false⟩, []⟩ ⟨none, none⟩ = Except.error e ∧
      storeElements ⟨true, false, 5, true⟩ = Except.error e) ∧
    (∀ st2, activate ⟨true, false, 5, true⟩
        ⟨none, false, ⟨0, false⟩, []⟩ ⟨none, none⟩ ≠ Except.ok st2) :=
  activate_missing_node ⟨true, false, 5, true⟩ ⟨none, false, ⟨0, false⟩, []⟩
    ⟨none, none⟩ (Or.inr rfl)

/-- C9: destroy is a no-op when the carousel is not activated; a second
destroy right after a first one changes nothing and emits nothing more, so
the destroy event is emitted at most once per activation. -/
theorem destroy_inactive_noop (st : Facade) :
    (st.activated = false → destroy st = st) ∧
    destroy (destroy st) = destroy st ∧
    (destroy (destroy st)).emitted = (destroy st).emitted ∧
    (destroy st).emitted.count EmblaEvent.destroyed ≤
      st.emitted.count EmblaEvent.destroyed + 1 := by
  by_cases h : st.activated = true
  · refine ⟨fun hf => by rw [hf] at h; exact absurd h (by simp), ?_, ?_, ?_⟩
    · simp [destroy, h]
    · simp [destroy, h]
    · simp [destroy, h, List.count_append]
  · have hst : destroy st = st := by simp [destroy, h]
    refine ⟨fun _ => hst, by simp only [hst], by simp only [hst], by rw [hst]; omega⟩

/-- Witness for C9 at a never-activated facade state. -/
theorem destroy_inactive_noop_witness :
    destroy ⟨none, false, ⟨0, false⟩, []⟩ = ⟨none, false, ⟨0, false⟩, []⟩ ∧
    destroy (destroy ⟨none, false, ⟨0, false⟩, []⟩) =
      destroy ⟨none, false, ⟨0, false⟩, []⟩ :=
  ⟨(destroy_inactive_noop ⟨none, false, ⟨0, false⟩, []⟩).1 rfl,
   (destroy_inactive_noop ⟨none, false, ⟨0, false⟩, []⟩).2.1⟩

lemma activateFuel_ok_shape (layout : Layout) :
    ∀ fuel st patch st2, activateFuel layout fuel st patch = Except.ok st2 →
      st2.engine = some (mkEngine layout st2.options) ∧
      (st2.options.loop = true → layout.canLoop = true) := by
  intro fuel
  induction fuel with
  | zero =>
      intro st patch st2 h
      simp [activateFuel] at h
  | succ fuel ih =>
      intro st patch st2 h
      simp only [activateFuel] at h
      split at h
      · exact Except.noConfusion h
      · split at h
        · split at h
          · rename_i hcan
            split at h <;> (injection h with h2; subst h2; exact ⟨rfl, fun _ => hcan⟩)
          · split at h
            · rename_i heq
              injection h with h2
              subst h2
              obtain ⟨h1, h2'⟩ := ih _ _ _ heq
              exact ⟨h1, h2'⟩
            · exact Except.noConfusion h
        · rename_i hloop
          split at h
          all_goals injection h with h2
          all_goals subst h2
          all_goals exact ⟨rfl, fun hl => absurd hl hloop⟩

/-- C10: an activation that succeeds never leaves an engine in loop mode
when the slide looper reports looping impossible: when loop is requested and
canLoop is false, activate returns into reActivate with loop false, so the
final engine and options have loop off. -/
theorem activate_never_loops_when_impossible (layout : Layout) (st : Facade)
    (patch : OptionsPatch) (st2 : Facade) (e : Engine)
    (hok : activate layout st patch = Except.ok st2)
    (heng : st2.engine = some e)
    (hcl : layout.canLoop = false) :
    e.loop = false ∧ st2.options.loop = false := by
  obtain ⟨hshape, hloop⟩ := activateFuel_ok_shape layout 2 st patch st2 hok
  have hopts : st2.options.loop = false := by
    cases hl : st2.options.loop
    · rfl
    · rw [hloop hl] at hcl; exact Bool.noConfusion hcl
  rw [hshape] at heng
  injection heng with he
  rw [← he]
  exact ⟨hopts, hopts⟩

/-- Witness for C10: activating a 5-snap layout that cannot loop with loop
requested ends with an engine and options that both have loop off. -/
theorem activate_never_loops_when_impossible_witness :
    (Engine.mk ⟨5, false, 0⟩ false).loop = false ∧
    (Facade.mk (some (Engine.mk ⟨5, false, 0⟩ false)) true ⟨0, false⟩
      [EmblaEvent.init, EmblaEvent.reInit]).options.loop = false :=
  activate_never_loops_when_impossible ⟨true, true, 5, false⟩
    ⟨none, false, ⟨0, true⟩, []⟩ ⟨none, none⟩
    ⟨some ⟨⟨5, false, 0⟩, false⟩, true, ⟨0, false⟩, [EmblaEvent.init, EmblaEvent.reInit]⟩
    ⟨⟨5, false, 0⟩, false⟩ rfl rfl rfl

lemma indexSet_in_range_id (len : ℤ) (lp : Bool) (v : ℤ) (h0 : 0 ≤ v) (h1 : v < len) :
    (indexSet ⟨len, lp, 0⟩ v).value = v := by
  cases lp
  · simp only [indexSet, Bool.false_eq_true, if_false]
    rw [max_eq_left h0, min_eq_left (by omega)]
  · simp only [indexSet, if_true]
    rw [wrap_tmod_eq_emod v len (by omega)]
    exact Int.emod_eq_of_lt h0 h1

/-- C6: reActivate with no explicit options (as on resize) reads the current
engine index as the startIndex of the rebuilt engine, so on an equivalent
layout whose snap count still covers the index, selectedScrollSnap is
unchanged across reactivation, including through the loop fallback. -/
theorem reActivate_preserves_index (layout : Layout) (st : Facade) (e : Engine)
    (heng : st.engine = some e)
    (hroot : layout.rootPresent = true) (hcont : layout.containerPresent = true)
    (h0 : 0 ≤ e.index.value) (h1 : e.index.value < layout.snapCount) :
    ∃ st2 e2, reActivate layout st ⟨none, none⟩ = Except.ok st2 ∧
      st2.engine = some e2 ∧ selectedScrollSnap e2 = selectedScrollSnap e := by
  have hse : storeElements layout = Except.ok () := by
    simp [storeElements, hroot, hcont]
  have hone : ∀ lp : Bool,
      (indexSet ⟨layout.snapCount, lp, 0⟩ e.index.value).value = e.index.value :=
    fun lp => indexSet_in_range_id _ lp _ h0 h1
  simp only [reActivate, heng, Option.getD_none, Option.getD_some, activate, activateFuel,
    hse, selectedScrollSnap]
  by_cases hl : (assignOptions st.options ⟨some e.index.value, none⟩).loop = true
  · by_cases hcan : layout.canLoop = true
    · by_cases hact : st.activated = true
      · simp only [hl, hcan, hact, if_true]
        exact ⟨_, _, rfl, rfl, by simp [mkEngine, assignOptions, hone]⟩
      · simp only [hl, hcan, hact, if_true, if_false]
        exact ⟨_, _, rfl, rfl, by simp [mkEngine, assignOptions, hone]⟩
    · have hv1 : (mkEngine layout (assignOptions st.options ⟨some e.index.value, none⟩)).index.value
          = e.index.value := by
        simp only [mkEngine, assignOptions, Option.getD_some]
        exact hone _
      by_cases hact : st.activated = true
      · simp only [hl, hcan, hact, if_true, if_false, hv1]
        exact ⟨_, _, rfl, rfl, by simp [mkEngine, assignOptions, hone]⟩
      · simp only [hl, hcan, hact, if_true, if_false, hv1]
        exact ⟨_, _, rfl, rfl, by simp [mkEngine, assignOptions, hone]⟩
  · by_cases hact : st.activated = true
    · simp only [hl, hact, if_true, if_false]
      exact ⟨_, _, rfl, rfl, by simp [mkEngine, assignOptions, hone]⟩
    · simp only [hl, hact, if_false]
      exact ⟨_, _, rfl, rfl, by simp [mkEngine, assignOptions, hone]⟩

/-- Witness for C6: reactivating a 5-snap non-looping carousel sitting at
index 2 keeps selectedScrollSnap at 2. -/
theorem reActivate_preserves_index_witness :
    ∃ st2 e2, reActivate ⟨true, true, 5, true⟩
        ⟨some ⟨⟨5, false, 2⟩, false⟩, true, ⟨2, false⟩, []⟩ ⟨none, none⟩ = Except.ok st2 ∧
      st2.engine = some e2 ∧
      selectedScrollSnap e2 = selectedScrollSnap ⟨⟨5, false, 2⟩, false⟩ :=
  reActivate_preserves_index ⟨true, true, 5, true⟩
    ⟨some ⟨⟨5, false, 2⟩, false⟩, true, ⟨2, false⟩, []⟩ ⟨⟨5, false, 2⟩, false⟩
    rfl rfl rfl (by decide) (by decide)

end Embla
